import Mathlib

/-!
Shallow embedding of the `pcap_reader` repository (pcap_reader.h /
pcap_reader.cpp): a sequential PCAP container reader (`CPcapReader::open`,
`CPcapReader::get_next_packet`, `CPcapReader::close`) and a fixed-layout
Ethernet/IPv4/UDP/RDMX header decoder (`CPcapReader::parse_packet_headers`).

Files are modelled as lists of byte values (`List Nat`, each element a
byte).  A `FILE*` is modelled as the file's contents together with the
current read position; a null `FILE*` is `none`.  `fread` returns the chunk
actually read (possibly short at end of file) and the advanced position.
Multi-byte container-header integers are little-endian in the file and the
code runs on a little-endian host (stated in the source's header comment),
so reading a packed struct field is little-endian decoding.  The packet
header decoder applies `swap16`/`swap32`/`swap64` to each multi-byte field
of the packed wire-order struct, which on any host amounts to big-endian
decoding of the bytes at the field's offset.
-/

/-- Byte of a buffer at index `i` (out-of-range reads default to 0; every
stored element is reduced mod 256, a byte). -/
def byteAt (d : List Nat) (i : Nat) : Nat := d.getD i 0 % 256

/-- Little-endian 16-bit read at offset `i`. -/
def le16 (d : List Nat) (i : Nat) : Nat :=
  byteAt d i + 256 * byteAt d (i + 1)

/-- Little-endian 32-bit read at offset `i` (packed little-endian struct
field, as in `pcap_header_t` and `pcap_packet_t`). -/
def le32 (d : List Nat) (i : Nat) : Nat :=
  byteAt d i + 256 * byteAt d (i + 1) + 65536 * byteAt d (i + 2) +
    16777216 * byteAt d (i + 3)

/-- Big-endian 16-bit read at offset `i`: the value of
`swap16(field)` for a 16-bit field stored at that offset (pcap_reader.cpp,
`swap16`). -/
def be16 (d : List Nat) (i : Nat) : Nat :=
  byteAt d i * 256 + byteAt d (i + 1)

/-- Big-endian 32-bit read at offset `i` (`swap32`). -/
def be32 (d : List Nat) (i : Nat) : Nat :=
  byteAt d i * 16777216 + byteAt d (i + 1) * 65536 +
    byteAt d (i + 2) * 256 + byteAt d (i + 3)

/-- Big-endian 64-bit read at offset `i` (`swap64`). -/
def be64 (d : List Nat) (i : Nat) : Nat :=
  byteAt d i * 72057594037927936 + byteAt d (i + 1) * 281474976710656 +
    byteAt d (i + 2) * 1099511627776 + byteAt d (i + 3) * 4294967296 +
    byteAt d (i + 4) * 16777216 + byteAt d (i + 5) * 65536 +
    byteAt d (i + 6) * 256 + byteAt d (i + 7)

/-- A 6-byte MAC address copied verbatim from offset `i` (`memcpy(..., 6)`). -/
def macAt (d : List Nat) (i : Nat) : List Nat :=
  [byteAt d i, byteAt d (i + 1), byteAt d (i + 2),
   byteAt d (i + 3), byteAt d (i + 4), byteAt d (i + 5)]

/-- `eth_header_t` from pcap_reader.h: the decoded, host-order fields of an
Ethernet/IPv4/UDP/RDMX packet plus the four cumulative classification
flags. -/
structure eth_header_t where
  is_ethernet : Bool
  is_ipv4 : Bool
  is_udp : Bool
  is_rdmx : Bool
  eth_dst_mac : List Nat
  eth_src_mac : List Nat
  eth_type : Nat
  ip4_version : Nat
  ip4_dsf : Nat
  ip4_length : Nat
  ip4_id : Nat
  ip4_flags : Nat
  ip4_ttl : Nat
  ip4_protocol : Nat
  ip4_checksum : Nat
  ip4_src_ip : Nat
  ip4_dst_ip : Nat
  udp_src_port : Nat
  udp_dst_port : Nat
  udp_length : Nat
  udp_checksum : Nat
  rdmx_magic : Nat
  rdmx_target : Nat
deriving DecidableEq

/-- `CPcapReader::parse_packet_headers` (pcap_reader.cpp lines 237-286).
The packed `network_order_header_t` overlay places the fields at these
offsets of `data`: dst MAC 0-5, src MAC 6-11, eth_type 12-13,
ip4_version 14, ip4_dsf 15, ip4_length 16-17, ip4_id 18-19,
ip4_flags 20-21, ip4_ttl 22, ip4_protocol 23, ip4_checksum 24-25,
ip4_src_ip 26-29, ip4_dst_ip 30-33, udp_src_port 34-35, udp_dst_port 36-37,
udp_length 38-39, udp_checksum 40-41, rdmx_magic 42-43, rdmx_target 44-51
(52 bytes in all).  Single-byte fields and the MACs are copied verbatim;
every multi-byte field goes through `swap16`/`swap32`/`swap64`, i.e. is
decoded big-endian. -/
def parse_packet_headers (data : List Nat) : eth_header_t :=
  let eth_type := be16 data 12
  let ip4_version := byteAt data 14
  let ip4_protocol := byteAt data 23
  let rdmx_magic := be16 data 42
  let is_ethernet : Bool := eth_type == 0x800
  let is_ipv4 : Bool := is_ethernet && (ip4_version == 0x45)
  let is_udp : Bool := is_ipv4 && (ip4_protocol == 0x11)
  let is_rdmx : Bool := is_udp && (rdmx_magic == 0x0122)
  { is_ethernet := is_ethernet
    is_ipv4 := is_ipv4
    is_udp := is_udp
    is_rdmx := is_rdmx
    eth_dst_mac := macAt data 0
    eth_src_mac := macAt data 6
    eth_type := eth_type
    ip4_version := ip4_version
    ip4_dsf := byteAt data 15
    ip4_length := be16 data 16
    ip4_id := be16 data 18
    ip4_flags := be16 data 20
    ip4_ttl := byteAt data 22
    ip4_protocol := ip4_protocol
    ip4_checksum := be16 data 24
    ip4_src_ip := be32 data 26
    ip4_dst_ip := be32 data 30
    udp_src_port := be16 data 34
    udp_dst_port := be16 data 36
    udp_length := be16 data 38
    udp_checksum := be16 data 40
    rdmx_magic := rdmx_magic
    rdmx_target := be64 data 44 }

/-- `pcap_header_t` from pcap_reader.h: the packed 24-byte PCAP file
header (magic 4 + major 2 + minor 2 + reserved1 4 + reserved2 4 +
snaplen 4 + link_type 4 bytes). -/
structure pcap_header_t where
  magic_number : Nat
  major_version : Nat
  minor_version : Nat
  reserved1 : Nat
  reserved2 : Nat
  snaplen : Nat
  link_type : Nat
deriving DecidableEq

/-- `sizeof(pcap_header_t)` with `#pragma pack(1)`: 24 bytes. -/
def pcap_header_size : Nat := 24

/-- Decoding a 24-byte buffer as the packed little-endian `pcap_header_t`
(the effect of `fread(&header_, 1, sizeof(header_), fp_)` on a
little-endian host). -/
def decode_pcap_header (d : List Nat) : pcap_header_t :=
  { magic_number := le32 d 0
    major_version := le16 d 4
    minor_version := le16 d 6
    reserved1 := le32 d 8
    reserved2 := le32 d 12
    snaplen := le32 d 16
    link_type := le32 d 20 }

/-- `sizeof(pcap_packet_t::data)`: the fixed payload capacity. -/
def pcap_data_capacity : Nat := 10000

/-- `pcap_packet_t` from pcap_reader.h: the 16-byte packed record header
(little-endian) followed by the payload bytes that were read into `data`.
The model stores only the `length` bytes of payload actually in use. -/
structure pcap_packet_t where
  ts_seconds : Nat
  ts_nanoseconds : Nat
  length : Nat
  reserved : Nat
  data : List Nat
deriving DecidableEq

/-- The runtime errors `throwRuntime` can raise, one constructor per
format-string call site in pcap_reader.cpp. -/
inductive RtError where
  /-- "Can't open %s" (open, fopen failed) -/
  | cantOpen : RtError
  /-- "File is not a nanosecond/little-endian PCAP file" (open, short
  header read or unrecognized magic) -/
  | notNanosecondPcap : RtError
  /-- "Bad packet length [%u] !" (get_next_packet, declared length exceeds
  the data buffer capacity) -/
  | badPacketLength : Nat → RtError
  /-- "File not open" (get_next_packet with a null FILE*) -/
  | fileNotOpen : RtError
deriving DecidableEq

/-- The spec's error taxonomy (spec section 7). -/
inductive ErrKind where
  | ioError : ErrKind
  | formatError : ErrKind
  | usageError : ErrKind
deriving DecidableEq

/-- Classification of each runtime error under the spec's taxonomy:
a failed `fopen` is an IOError; a short container header, unrecognized
magic, or oversized declared record length is a FormatError; reading with
no file open is a UsageError. -/
def RtError.kind : RtError → ErrKind
  | .cantOpen => .ioError
  | .notNanosecondPcap => .formatError
  | .badPacketLength _ => .formatError
  | .fileNotOpen => .usageError

/-- Outcome of one `get_next_packet` call: `true` with a packet, `false`
(end of stream), or a thrown runtime error. -/
inductive NextResult where
  | ok : pcap_packet_t → NextResult
  | eof : NextResult
  | err : RtError → NextResult
deriving DecidableEq

/-- `fread(buf, 1, n, fp)` on a file with contents `file` and current
position `pos`: returns the chunk of bytes actually read (short at end of
file) and the advanced position; the byte count returned by the C call is
the chunk's length. -/
def fread (file : List Nat) (pos n : Nat) : List Nat × Nat :=
  let chunk := (file.drop pos).take n
  (chunk, pos + chunk.length)

/-- `CPcapReader`'s state: `fp_` is the open file (contents plus read
position) or `none` for a null pointer, `header_` the PCAP header field. -/
structure CPcapReader where
  fp_ : Option (List Nat × Nat)
  header_ : pcap_header_t
deriving DecidableEq

/-- The constructor `CPcapReader()`: `fp_ = nullptr`; `header_` is an
uninitialized member, modelled as all-zero. -/
def CPcapReader.mk0 : CPcapReader :=
  { fp_ := none, header_ := ⟨0, 0, 0, 0, 0, 0, 0⟩ }

/-- `CPcapReader::open` (pcap_reader.cpp lines 70-88).  The argument
`file` is the outcome of `fopen`: `none` when the path cannot be opened,
otherwise the file's bytes.  On a failed `fopen` the null pointer is
stored in `fp_` and "Can't open" is thrown.  Otherwise `fp_` holds the
open file, `sizeof(header_)` = 24 bytes are read into `header_`, and a
short read or an unrecognized magic number throws "File is not a
nanosecond/little-endian PCAP file" (leaving `fp_` open).  A short read
leaves the tail of `header_` unspecified in C; the model zero-pads via
`byteAt`'s default, which no subsequent operation observes because the
open has failed. -/
def CPcapReader.open_file (r : CPcapReader) (file : Option (List Nat)) :
    CPcapReader × Option RtError :=
  match file with
  | none => ({ r with fp_ := none }, some .cantOpen)
  | some contents =>
    let res := fread contents 0 pcap_header_size
    let r1 : CPcapReader :=
      { fp_ := some (contents, res.2), header_ := decode_pcap_header res.1 }
    if res.1.length ≠ pcap_header_size then
      (r1, some .notNanosecondPcap)
    else if r1.header_.magic_number ≠ 0xA1B23C4D ∧
            r1.header_.magic_number ≠ 0xA1B2C3D4 then
      (r1, some .notNanosecondPcap)
    else
      (r1, none)

/-- `CPcapReader::close` (pcap_reader.cpp lines 95-102): closes the file
if open, idempotent. -/
def CPcapReader.close (r : CPcapReader) : CPcapReader :=
  match r.fp_ with
  | none => r
  | some _ => { r with fp_ := none }

/-- `CPcapReader::get_next_packet` (pcap_reader.cpp lines 111-131).
Throws "File not open" on a null `fp_`.  Reads the 16-byte packed record
header; a short read is end of stream (`false`).  If the declared
`length` exceeds `sizeof(packet->data)` = 10000, throws "Bad packet
length".  Reads `length` payload bytes; a short read is end of stream
(`false`).  Otherwise returns `true` with the packet. -/
def CPcapReader.get_next_packet (r : CPcapReader) : CPcapReader × NextResult :=
  match r.fp_ with
  | none => (r, .err .fileNotOpen)
  | some (contents, pos) =>
    let h := fread contents pos 16
    let r1 : CPcapReader := { r with fp_ := some (contents, h.2) }
    if h.1.length ≠ 16 then
      (r1, .eof)
    else if le32 h.1 8 > pcap_data_capacity then
      (r1, .err (.badPacketLength (le32 h.1 8)))
    else
      let d := fread contents h.2 (le32 h.1 8)
      let r2 : CPcapReader := { r with fp_ := some (contents, d.2) }
      if d.1.length ≠ le32 h.1 8 then
        (r2, .eof)
      else
        (r2, .ok { ts_seconds := le32 h.1 0
                   ts_nanoseconds := le32 h.1 4
                   length := le32 h.1 8
                   reserved := le32 h.1 12
                   data := d.1 })

/-- Iterating `get_next_packet` `n` times, collecting the outcomes in
order. -/
def readN (r : CPcapReader) : Nat → CPcapReader × List NextResult
  | 0 => (r, [])
  | n + 1 =>
    let s := r.get_next_packet
    let rest := readN s.1 n
    (rest.1, s.2 :: rest.2)

/-- The 4-byte little-endian encoding of a 32-bit value (container-side
integers: record header fields, file header fields). -/
def encode_le32 (v : Nat) : List Nat :=
  [v % 256, v / 256 % 256, v / 65536 % 256, v / 16777216 % 256]

/-- A raw PCAP record as written in a capture file: the three meaningful
little-endian header fields plus the payload bytes (the declared length
is the payload's length). -/
structure RawRec where
  ts_seconds : Nat
  ts_nanoseconds : Nat
  reserved : Nat
  data : List Nat
deriving DecidableEq

/-- A record is well formed when its header fields fit in 32 bits and its
payload fits the reader's fixed 10000-byte buffer. -/
def wf_rec (rec : RawRec) : Prop :=
  rec.ts_seconds < 4294967296 ∧ rec.ts_nanoseconds < 4294967296 ∧
    rec.reserved < 4294967296 ∧ rec.data.length ≤ pcap_data_capacity

/-- The 16-byte record header of a record, as in the file. -/
def encode_rec_hdr (rec : RawRec) : List Nat :=
  encode_le32 rec.ts_seconds ++ encode_le32 rec.ts_nanoseconds ++
    encode_le32 rec.data.length ++ encode_le32 rec.reserved

/-- A record's bytes in the file: 16-byte header then payload. -/
def encode_record (rec : RawRec) : List Nat :=
  encode_rec_hdr rec ++ rec.data

/-- A sequence of records laid out consecutively. -/
def encode_records : List RawRec → List Nat
  | [] => []
  | rec :: recs => encode_record rec ++ encode_records recs

/-- The packet `get_next_packet` stores for a record read in full. -/
def packet_of (rec : RawRec) : pcap_packet_t :=
  { ts_seconds := rec.ts_seconds
    ts_nanoseconds := rec.ts_nanoseconds
    length := rec.data.length
    reserved := rec.reserved
    data := rec.data }

/-- The 2-byte big-endian encoding of a 16-bit value. -/
def encode_be16 (v : Nat) : List Nat := [v / 256 % 256, v % 256]

/-- The 4-byte big-endian encoding of a 32-bit value. -/
def encode_be32 (v : Nat) : List Nat :=
  [v / 16777216 % 256, v / 65536 % 256, v / 256 % 256, v % 256]

/-- The 8-byte big-endian encoding of a 64-bit value. -/
def encode_be64 (v : Nat) : List Nat :=
  [v / 72057594037927936 % 256, v / 281474976710656 % 256,
   v / 1099511627776 % 256, v / 4294967296 % 256,
   v / 16777216 % 256, v / 65536 % 256, v / 256 % 256, v % 256]

/-- Laying out header field values at the documented offsets in wire
order: MACs verbatim, multi-byte fields big-endian, single-byte fields
verbatim — the inverse layout of `parse_packet_headers` (52 bytes when
the MACs have 6 bytes each). -/
def encode_header (h : eth_header_t) : List Nat :=
  h.eth_dst_mac ++ h.eth_src_mac ++ encode_be16 h.eth_type ++
    [h.ip4_version, h.ip4_dsf] ++
    encode_be16 h.ip4_length ++ encode_be16 h.ip4_id ++
    encode_be16 h.ip4_flags ++ [h.ip4_ttl, h.ip4_protocol] ++
    encode_be16 h.ip4_checksum ++ encode_be32 h.ip4_src_ip ++
    encode_be32 h.ip4_dst_ip ++ encode_be16 h.udp_src_port ++
    encode_be16 h.udp_dst_port ++ encode_be16 h.udp_length ++
    encode_be16 h.udp_checksum ++ encode_be16 h.rdmx_magic ++
    encode_be64 h.rdmx_target

/-- A concrete header-field assignment used to instantiate theorems with
hypotheses. -/
def hdr0 : eth_header_t :=
  { is_ethernet := false, is_ipv4 := false, is_udp := false, is_rdmx := false
    eth_dst_mac := [1, 2, 3, 4, 5, 6]
    eth_src_mac := [7, 8, 9, 10, 11, 12]
    eth_type := 0x800
    ip4_version := 0x45
    ip4_dsf := 0
    ip4_length := 20
    ip4_id := 1
    ip4_flags := 2
    ip4_ttl := 64
    ip4_protocol := 0x11
    ip4_checksum := 3
    ip4_src_ip := 16909060
    ip4_dst_ip := 84281096
    udp_src_port := 1000
    udp_dst_port := 2000
    udp_length := 28
    udp_checksum := 4
    rdmx_magic := 0x0122
    rdmx_target := 1234605616436508552 }

/-- The spec's concrete scenario buffer: broadcast dst MAC, zero src MAC,
eth_type 0x0800, version byte 0x45, protocol 0x11, marker magic 0x0122,
everything else zero, 52 bytes. -/
def demo_packet : List Nat :=
  [0xFF, 0xFF, 0xFF, 0xFF, 0xFF, 0xFF, 0, 0, 0, 0, 0, 0, 0x08, 0x00,
   0x45, 0, 0, 0, 0, 0, 0, 0, 0, 0x11, 0, 0, 0, 0, 0, 0, 0, 0, 0, 0,
   0, 0, 0, 0, 0, 0, 0, 0, 0x01, 0x22, 0, 0, 0, 0, 0, 0, 0, 0]

/-- A 24-byte all-zero file: its magic number 0 is not accepted. -/
def badmagic24 : List Nat := List.replicate 24 0

/-- A 20-byte file whose leading 4 bytes are the accepted nanosecond
magic 0xA1B23C4D in little-endian order. -/
def file20 : List Nat := [0x4D, 0x3C, 0xB2, 0xA1] ++ List.replicate 16 0

/-- A 16-byte file holding one record header that declares a 10001-byte
payload. -/
def bigrec_file : List Nat :=
  encode_le32 5 ++ encode_le32 6 ++ encode_le32 10001 ++ encode_le32 0

/-- A session positioned at the start of `bigrec_file`. -/
def sess_bigrec : CPcapReader :=
  { fp_ := some (bigrec_file, 0), header_ := ⟨0, 0, 0, 0, 0, 0, 0⟩ }

/-- An 18-byte file holding one record header that declares a 5-byte
payload of which only 2 bytes are present. -/
def truncrec_file : List Nat :=
  encode_le32 1 ++ encode_le32 2 ++ encode_le32 5 ++ encode_le32 0 ++ [9, 9]

/-- A session positioned at the start of `truncrec_file`. -/
def sess_trunc : CPcapReader :=
  { fp_ := some (truncrec_file, 0), header_ := ⟨0, 0, 0, 0, 0, 0, 0⟩ }

instance (rec : RawRec) : Decidable (wf_rec rec) := by
  unfold wf_rec
  infer_instance

/-- First record of the two-record witness capture. -/
def recA : RawRec := { ts_seconds := 10, ts_nanoseconds := 20,
                       reserved := 7, data := [1, 2, 3] }

/-- Second record of the two-record witness capture. -/
def recB : RawRec := { ts_seconds := 30, ts_nanoseconds := 40,
                       reserved := 9, data := [4, 5] }

/-- A complete capture file: valid nanosecond magic, 24-byte header, then
the two records `recA` and `recB`. -/
def file2recs : List Nat :=
  [0x4D, 0x3C, 0xB2, 0xA1] ++ List.replicate 20 0 ++
    encode_records [recA, recB]

/-!
Helper lemmas and the claim theorems.
-/

lemma byteAt_cons (a : Nat) (l : List Nat) (n : Nat) :
    byteAt (a :: l) n = if n = 0 then a % 256 else byteAt l (n - 1) := by
  cases n <;> simp [byteAt]

lemma byteAt_nil (n : Nat) : byteAt [] n = 0 := by
  simp [byteAt]

lemma byteAt_take (l : List Nat) (n i : Nat) (h : i < n) :
    byteAt (l.take n) i = byteAt l i := by
  simp [byteAt, List.getD_eq_getElem?_getD, List.getElem?_take, h]

lemma byteAt_append_left (l1 l2 : List Nat) (i : Nat) (h : i < l1.length) :
    byteAt (l1 ++ l2) i = byteAt l1 i := by
  simp [byteAt, List.getD_eq_getElem?_getD, List.getElem?_append, h]

lemma byteAt_append_right (l1 l2 : List Nat) (i : Nat) (h : l1.length ≤ i) :
    byteAt (l1 ++ l2) i = byteAt l2 (i - l1.length) := by
  have : ¬ i < l1.length := by omega
  simp [byteAt, List.getD_eq_getElem?_getD, List.getElem?_append, this]

lemma le32_take (l : List Nat) (n i : Nat) (h : i + 3 < n) :
    le32 (l.take n) i = le32 l i := by
  unfold le32
  rw [byteAt_take l n i (by omega), byteAt_take l n (i + 1) (by omega),
      byteAt_take l n (i + 2) (by omega), byteAt_take l n (i + 3) (by omega)]

lemma length_encode_le32 (v : Nat) : (encode_le32 v).length = 4 := rfl

lemma length_encode_rec_hdr (rec : RawRec) : (encode_rec_hdr rec).length = 16 := by
  simp [encode_rec_hdr, length_encode_le32]

lemma le32_encode_rec_hdr_0 (rec : RawRec) (h : rec.ts_seconds < 4294967296) :
    le32 (encode_rec_hdr rec) 0 = rec.ts_seconds := by
  simp only [encode_rec_hdr, encode_le32, List.cons_append, List.nil_append]
  simp [le32, byteAt_cons, Nat.mod_mod_of_dvd]
  omega

lemma le32_encode_rec_hdr_4 (rec : RawRec) (h : rec.ts_nanoseconds < 4294967296) :
    le32 (encode_rec_hdr rec) 4 = rec.ts_nanoseconds := by
  simp only [encode_rec_hdr, encode_le32, List.cons_append, List.nil_append]
  simp [le32, byteAt_cons]
  omega

lemma le32_encode_rec_hdr_8 (rec : RawRec) (h : rec.data.length < 4294967296) :
    le32 (encode_rec_hdr rec) 8 = rec.data.length := by
  simp only [encode_rec_hdr, encode_le32, List.cons_append, List.nil_append]
  simp [le32, byteAt_cons]
  omega

lemma le32_encode_rec_hdr_12 (rec : RawRec) (h : rec.reserved < 4294967296) :
    le32 (encode_rec_hdr rec) 12 = rec.reserved := by
  simp only [encode_rec_hdr, encode_le32, List.cons_append, List.nil_append]
  simp [le32, byteAt_cons]
  omega

lemma get_next_packet_encode (r : CPcapReader) (contents : List Nat)
    (pos : Nat) (rec : RawRec) (rest : List Nat)
    (hfp : r.fp_ = some (contents, pos))
    (hdrop : contents.drop pos = encode_record rec ++ rest)
    (hwf : wf_rec rec) :
    r.get_next_packet =
      ({ r with fp_ := some (contents, pos + 16 + rec.data.length) },
        NextResult.ok (packet_of rec)) ∧
    contents.drop (pos + 16 + rec.data.length) = rest := by
  obtain ⟨hts, htn, hres, hlen⟩ := hwf
  have hassoc : encode_record rec ++ rest =
      encode_rec_hdr rec ++ (rec.data ++ rest) := by
    simp [encode_record]
  have htake : (contents.drop pos).take 16 = encode_rec_hdr rec := by
    rw [hdrop, hassoc]
    exact List.take_left' (length_encode_rec_hdr rec)
  have hdrop16 : contents.drop (pos + 16) = rec.data ++ rest := by
    have h1 : contents.drop (pos + 16) = (contents.drop pos).drop 16 := by
      rw [List.drop_drop]
    rw [h1, hdrop, hassoc]
    exact List.drop_left' (length_encode_rec_hdr rec)
  have hlen' : rec.data.length ≤ 10000 := hlen
  have hchunk : fread contents pos 16 = (encode_rec_hdr rec, pos + 16) := by
    simp [fread, htake, length_encode_rec_hdr]
  have hdata : fread contents (pos + 16) rec.data.length =
      (rec.data, pos + 16 + rec.data.length) := by
    simp [fread, hdrop16, List.take_left' rfl]
  have hcap : ¬ le32 (encode_rec_hdr rec) 8 > pcap_data_capacity := by
    rw [le32_encode_rec_hdr_8 rec (by omega)]
    simp only [pcap_data_capacity]
    omega
  refine ⟨?_, ?_⟩
  · simp only [CPcapReader.get_next_packet, hfp, hchunk,
      length_encode_rec_hdr, le32_encode_rec_hdr_8 rec (by omega),
      le32_encode_rec_hdr_0 rec hts, le32_encode_rec_hdr_4 rec htn,
      le32_encode_rec_hdr_12 rec hres, hdata, packet_of,
      if_neg hcap]
    simp [le32_encode_rec_hdr_8 rec (by omega)]
    exact hlen
  · have hfin : List.drop rec.data.length (List.drop (pos + 16) contents) = rest := by
      rw [hdrop16, List.drop_left' rfl]
    rw [List.drop_drop] at hfin
    exact hfin

lemma get_next_packet_at_end (r : CPcapReader) (contents : List Nat)
    (pos : Nat) (hfp : r.fp_ = some (contents, pos))
    (hend : contents.drop pos = []) :
    (r.get_next_packet).2 = NextResult.eof := by
  simp only [CPcapReader.get_next_packet, hfp, fread, hend]
  simp

lemma readN_encode (contents : List Nat) (recs : List RawRec) :
    ∀ (r : CPcapReader) (pos : Nat),
      r.fp_ = some (contents, pos) →
      contents.drop pos = encode_records recs →
      (∀ rec ∈ recs, wf_rec rec) →
      (readN r recs.length).2 =
        recs.map (fun rec => NextResult.ok (packet_of rec)) ∧
      ∃ posF, (readN r recs.length).1.fp_ = some (contents, posF) ∧
        contents.drop posF = [] := by
  induction recs with
  | nil =>
    intro r pos hfp hdrop _
    exact ⟨rfl, pos, hfp, hdrop⟩
  | cons rec recs ih =>
    intro r pos hfp hdrop hwf
    obtain ⟨hstep, hdrop'⟩ :=
      get_next_packet_encode r contents pos rec (encode_records recs) hfp
        (by rw [hdrop]; rfl) (hwf rec (by simp))
    obtain ⟨ih1, posF, ihfp, ihend⟩ :=
      ih { r with fp_ := some (contents, pos + 16 + rec.data.length) }
        (pos + 16 + rec.data.length) rfl hdrop'
        (fun x hx => hwf x (by simp [hx]))
    rw [show (rec :: recs).length = recs.length + 1 from rfl]
    simp only [readN, hstep]
    exact ⟨by simp [ih1], posF, ihfp, ihend⟩

lemma list_length_six (l : List Nat) (h : l.length = 6) :
    ∃ a b c d e f, l = [a, b, c, d, e, f] := by
  match l, h with
  | [a, b, c, d, e, f], _ => exact ⟨a, b, c, d, e, f, rfl⟩

set_option maxHeartbeats 1000000 in

/-- C3: for every assignment of host-order values to the header fields
(with eth_type 0x0800, version 0x45, protocol 0x11, marker magic 0x0122),
decoding the 52-byte buffer obtained by laying those values out at the
documented offsets in big-endian wire order (MACs copied verbatim) yields
a header whose four flags are all true and whose every field equals the
original host-order value. -/
theorem parse_encode_roundtrip (h : eth_header_t)
    (hdst : h.eth_dst_mac.length = 6) (hdstb : ∀ x ∈ h.eth_dst_mac, x < 256)
    (hsrc : h.eth_src_mac.length = 6) (hsrcb : ∀ x ∈ h.eth_src_mac, x < 256)
    (htype : h.eth_type = 0x800)
    (hver : h.ip4_version = 0x45)
    (hdsf : h.ip4_dsf < 256)
    (hiplen : h.ip4_length < 65536)
    (hipid : h.ip4_id < 65536)
    (hipflags : h.ip4_flags < 65536)
    (httl : h.ip4_ttl < 256)
    (hproto : h.ip4_protocol = 0x11)
    (hcksum : h.ip4_checksum < 65536)
    (hsip : h.ip4_src_ip < 4294967296)
    (hdip : h.ip4_dst_ip < 4294967296)
    (husp : h.udp_src_port < 65536)
    (hudp : h.udp_dst_port < 65536)
    (hulen : h.udp_length < 65536)
    (huck : h.udp_checksum < 65536)
    (hmagic : h.rdmx_magic = 0x0122)
    (htarget : h.rdmx_target < 18446744073709551616) :
    parse_packet_headers (encode_header h) =
      { h with is_ethernet := true, is_ipv4 := true,
               is_udp := true, is_rdmx := true } := by
  obtain ⟨ie, i4, iu, ir, dst, src, et, ver, dsf, len, idf, flg, ttl, proto,
    ck, sip, dip, usp, udpp, ulen, uck, rm, rt⟩ := h
  dsimp only at *
  obtain ⟨d0, d1, d2, d3, d4, d5, rfl⟩ := list_length_six dst hdst
  obtain ⟨s0, s1, s2, s3, s4, s5, rfl⟩ := list_length_six src hsrc
  simp only [List.mem_cons, List.not_mem_nil, or_false, forall_eq_or_imp,
    forall_eq] at hdstb hsrcb
  subst htype hver hproto hmagic
  simp only [encode_header, encode_be16, encode_be32, encode_be64,
    List.cons_append, List.nil_append]
  simp only [parse_packet_headers, macAt, be16, be32, be64, byteAt_cons]
  norm_num
  refine ⟨hdstb, hsrcb, hdsf, ?_, ?_, ?_, httl, ?_, ?_, ?_, ?_, ?_, ?_, ?_,
    ?_⟩ <;> omega

/-- Witness for C3: the round trip evaluated at the concrete field
assignment `hdr0`. -/
theorem parse_encode_roundtrip_witness :
    parse_packet_headers (encode_header hdr0) =
      { hdr0 with is_ethernet := true, is_ipv4 := true,
                  is_udp := true, is_rdmx := true } :=
  parse_encode_roundtrip hdr0 rfl (by decide) rfl (by decide) rfl rfl
    (by decide) (by decide) (by decide) (by decide) (by decide) rfl
    (by decide) (by decide) (by decide) (by decide) (by decide) (by decide)
    (by decide) rfl (by decide)

/-- C2: for every input buffer of at least the fixed 52-byte size, the
four classification flags are exactly the gated equations over the
decoded host-order fields: is_ethernet = (eth_type == 0x0800),
is_ipv4 = is_ethernet && (version == 0x45),
is_udp = is_ipv4 && (protocol == 0x11),
is_rdmx = is_udp && (magic == 0x0122). -/
theorem parse_flags_gated (d : List Nat) (h52 : 52 ≤ d.length) :
    (parse_packet_headers d).is_ethernet =
      ((parse_packet_headers d).eth_type == 0x800) ∧
    (parse_packet_headers d).is_ipv4 =
      ((parse_packet_headers d).is_ethernet &&
        ((parse_packet_headers d).ip4_version == 0x45)) ∧
    (parse_packet_headers d).is_udp =
      ((parse_packet_headers d).is_ipv4 &&
        ((parse_packet_headers d).ip4_protocol == 0x11)) ∧
    (parse_packet_headers d).is_rdmx =
      ((parse_packet_headers d).is_udp &&
        ((parse_packet_headers d).rdmx_magic == 0x0122)) :=
  ⟨rfl, rfl, rfl, rfl⟩

/-- Witness for C2: the gated flag equations evaluated on the spec's
concrete 52-byte scenario buffer. -/
theorem parse_flags_gated_witness :
    52 ≤ demo_packet.length ∧
    ((parse_packet_headers demo_packet).is_ethernet =
      ((parse_packet_headers demo_packet).eth_type == 0x800) ∧
    (parse_packet_headers demo_packet).is_ipv4 =
      ((parse_packet_headers demo_packet).is_ethernet &&
        ((parse_packet_headers demo_packet).ip4_version == 0x45)) ∧
    (parse_packet_headers demo_packet).is_udp =
      ((parse_packet_headers demo_packet).is_ipv4 &&
        ((parse_packet_headers demo_packet).ip4_protocol == 0x11)) ∧
    (parse_packet_headers demo_packet).is_rdmx =
      ((parse_packet_headers demo_packet).is_udp &&
        ((parse_packet_headers demo_packet).rdmx_magic == 0x0122))) :=
  ⟨by decide, parse_flags_gated demo_packet (by decide)⟩

/-- C8: for every input buffer of at least 52 bytes the flags are
monotone (each deeper flag implies all shallower ones), and if the
decoded eth_type differs from 0x0800 then all four flags are false. -/
theorem parse_flags_monotone (d : List Nat) (h52 : 52 ≤ d.length) :
    ((parse_packet_headers d).is_rdmx = true →
      (parse_packet_headers d).is_udp = true ∧
      (parse_packet_headers d).is_ipv4 = true ∧
      (parse_packet_headers d).is_ethernet = true) ∧
    ((parse_packet_headers d).is_udp = true →
      (parse_packet_headers d).is_ipv4 = true ∧
      (parse_packet_headers d).is_ethernet = true) ∧
    ((parse_packet_headers d).is_ipv4 = true →
      (parse_packet_headers d).is_ethernet = true) ∧
    ((parse_packet_headers d).eth_type ≠ 0x800 →
      (parse_packet_headers d).is_ethernet = false ∧
      (parse_packet_headers d).is_ipv4 = false ∧
      (parse_packet_headers d).is_udp = false ∧
      (parse_packet_headers d).is_rdmx = false) := by
  refine ⟨?_, ?_, ?_, ?_⟩
  · intro hr
    simp only [parse_packet_headers, Bool.and_eq_true, beq_iff_eq] at hr ⊢
    tauto
  · intro hu
    simp only [parse_packet_headers, Bool.and_eq_true, beq_iff_eq] at hu ⊢
    tauto
  · intro h4
    simp only [parse_packet_headers, Bool.and_eq_true, beq_iff_eq] at h4 ⊢
    tauto
  · intro hne
    simp only [parse_packet_headers] at hne ⊢
    have hfalse : (be16 d 12 == 0x800) = false := by
      simpa using hne
    simp [hfalse]

/-- Witness for C8: monotonicity evaluated on the spec's concrete 52-byte
scenario buffer. -/
theorem parse_flags_monotone_witness :
    52 ≤ demo_packet.length ∧
    (((parse_packet_headers demo_packet).is_rdmx = true →
      (parse_packet_headers demo_packet).is_udp = true ∧
      (parse_packet_headers demo_packet).is_ipv4 = true ∧
      (parse_packet_headers demo_packet).is_ethernet = true) ∧
    ((parse_packet_headers demo_packet).is_udp = true →
      (parse_packet_headers demo_packet).is_ipv4 = true ∧
      (parse_packet_headers demo_packet).is_ethernet = true) ∧
    ((parse_packet_headers demo_packet).is_ipv4 = true →
      (parse_packet_headers demo_packet).is_ethernet = true) ∧
    ((parse_packet_headers demo_packet).eth_type ≠ 0x800 →
      (parse_packet_headers demo_packet).is_ethernet = false ∧
      (parse_packet_headers demo_packet).is_ipv4 = false ∧
      (parse_packet_headers demo_packet).is_udp = false ∧
      (parse_packet_headers demo_packet).is_rdmx = false)) :=
  ⟨by decide, parse_flags_monotone demo_packet (by decide)⟩

/-- C10: two buffers of at least 52 bytes that agree on their first 52
bytes decode to identical headers — the decoder is deterministic and
reads nothing beyond bytes 0 through 51. -/
theorem parse_depends_on_first_52 (d1 d2 : List Nat)
    (h1 : 52 ≤ d1.length) (h2 : 52 ≤ d2.length)
    (hagree : d1.take 52 = d2.take 52) :
    parse_packet_headers d1 = parse_packet_headers d2 := by
  have hb : ∀ i, i < 52 → byteAt d1 i = byteAt d2 i := by
    intro i hi
    rw [← byteAt_take d1 52 i hi, ← byteAt_take d2 52 i hi, hagree]
  simp only [parse_packet_headers, macAt, be16, be32, be64]
  simp [hb]

/-- Witness for C10: two concrete buffers sharing their first 52 bytes
but differing afterwards decode identically. -/
theorem parse_depends_on_first_52_witness :
    52 ≤ (demo_packet ++ [1]).length ∧ 52 ≤ (demo_packet ++ [2]).length ∧
    (demo_packet ++ [1]).take 52 = (demo_packet ++ [2]).take 52 ∧
    parse_packet_headers (demo_packet ++ [1]) =
      parse_packet_headers (demo_packet ++ [2]) :=
  ⟨by decide, by decide, by decide,
    parse_depends_on_first_52 (demo_packet ++ [1]) (demo_packet ++ [2])
      (by decide) (by decide) (by decide)⟩

lemma open_file_full (r : CPcapReader) (contents : List Nat)
    (hlen : 24 ≤ contents.length) :
    r.open_file (some contents) =
      ({ fp_ := some (contents, 24),
         header_ := decode_pcap_header (contents.take 24) },
       if le32 (contents.take 24) 0 ≠ 0xA1B23C4D ∧
          le32 (contents.take 24) 0 ≠ 0xA1B2C3D4
       then some RtError.notNanosecondPcap else none) := by
  have htake : (contents.drop 0).take 24 = contents.take 24 := by simp
  have hl : (contents.take 24).length = 24 := by
    simp [List.length_take]
    omega
  simp only [CPcapReader.open_file, fread, pcap_header_size, htake, hl]
  norm_num [decode_pcap_header]
  split_ifs <;> rfl

lemma open_file_short (r : CPcapReader) (contents : List Nat)
    (hshort : contents.length < 24) :
    (r.open_file (some contents)).2 = some RtError.notNanosecondPcap := by
  have htake : (contents.drop 0).take 24 = contents := by
    simp [List.take_of_length_le (by omega : contents.length ≤ 24)]
  have hne : contents.length ≠ 24 := by omega
  simp only [CPcapReader.open_file, fread, pcap_header_size, htake]
  simp [hne]

lemma open_file_fp (r : CPcapReader) (contents : List Nat)
    (hlen : 24 ≤ contents.length) :
    (r.open_file (some contents)).1.fp_ = some (contents, 24) := by
  rw [open_file_full r contents hlen]

/-- C1: for every capture file that can be opened and whose full container
header is read, Open succeeds if and only if the header's (little-endian)
leading magic number is 0xA1B23C4D or 0xA1B2C3D4; for any other leading
magic value Open fails with a FormatError. -/
theorem open_succeeds_iff_magic (r : CPcapReader) (contents : List Nat)
    (hlen : 24 ≤ contents.length) :
    ((r.open_file (some contents)).2 = none ↔
      le32 contents 0 = 0xA1B23C4D ∨ le32 contents 0 = 0xA1B2C3D4) ∧
    (le32 contents 0 ≠ 0xA1B23C4D ∧ le32 contents 0 ≠ 0xA1B2C3D4 →
      (r.open_file (some contents)).2 = some RtError.notNanosecondPcap ∧
      RtError.notNanosecondPcap.kind = ErrKind.formatError) := by
  have hm : le32 (contents.take 24) 0 = le32 contents 0 :=
    le32_take contents 24 0 (by omega)
  rw [open_file_full r contents hlen]
  simp only [hm]
  constructor
  · by_cases h : le32 contents 0 = 0xA1B23C4D ∨ le32 contents 0 = 0xA1B2C3D4
    · rcases h with h | h <;> simp [h]
    · push_neg at h
      simp [h.1, h.2]
  · intro h
    simp [h.1, h.2, RtError.kind]

/-- Witness for C1: on the 24-byte all-zero file the magic test fails and
Open reports the format error. -/
theorem open_succeeds_iff_magic_witness :
    24 ≤ badmagic24.length ∧
    ((((CPcapReader.mk0.open_file (some badmagic24)).2 = none ↔
      le32 badmagic24 0 = 0xA1B23C4D ∨ le32 badmagic24 0 = 0xA1B2C3D4) ∧
    (le32 badmagic24 0 ≠ 0xA1B23C4D ∧ le32 badmagic24 0 ≠ 0xA1B2C3D4 →
      (CPcapReader.mk0.open_file (some badmagic24)).2 =
        some RtError.notNanosecondPcap ∧
      RtError.notNanosecondPcap.kind = ErrKind.formatError))) :=
  ⟨by decide, open_succeeds_iff_magic CPcapReader.mk0 badmagic24 (by decide)⟩

/-- C6 (amended): Open reads a fixed-size container header of exactly 24
bytes — magic 4, major 2, minor 2, two reserved 4-byte fields, snaplen 4,
link-type 4 — and fails with FormatError when the file holds fewer than
24 bytes (in particular for every file shorter than 20 bytes); after a
full header read the file position stands at byte 24. -/
theorem open_reads_full_24_header (r : CPcapReader) (contents : List Nat) :
    (contents.length < 24 →
      (r.open_file (some contents)).2 = some RtError.notNanosecondPcap ∧
      RtError.notNanosecondPcap.kind = ErrKind.formatError) ∧
    (24 ≤ contents.length →
      (r.open_file (some contents)).1.fp_ = some (contents, 24)) :=
  ⟨fun hshort => ⟨open_file_short r contents hshort, rfl⟩,
   fun hlen => open_file_fp r contents hlen⟩

/-- Counterexample for C6 as stated: the container header is 24 bytes,
not 20.  This 20-byte file with an accepted magic number contains a full
header under the claim's 20-byte reading, yet Open fails with the
FormatError — the read of sizeof(pcap_header_t) = 24 bytes comes up
short. -/
theorem open_twenty_byte_file_fails :
    file20.length = 20 ∧ le32 file20 0 = 0xA1B23C4D ∧
    (CPcapReader.mk0.open_file (some file20)).2 =
      some RtError.notNanosecondPcap := by decide

/-- Witness for C6 (amended): the 20-byte file is shorter than 24 bytes
and Open fails with the format error. -/
theorem open_reads_full_24_header_witness :
    file20.length < 24 ∧
    ((CPcapReader.mk0.open_file (some file20)).2 =
      some RtError.notNanosecondPcap ∧
     RtError.notNanosecondPcap.kind = ErrKind.formatError) :=
  ⟨by decide,
   (open_reads_full_24_header CPcapReader.mk0 file20).1 (by decide)⟩

/-- C7 (amended): when Open fails because the path cannot be opened
(`fopen` returned null), the session holds no file handle and a
subsequent NextRecord fails with the UsageError; but when Open fails
after `fopen` succeeded (short header or unrecognized magic), the open
handle is retained in `fp_` — a subsequent NextRecord reads from the
file instead of failing with a UsageError, and only Close or the
destructor releases the handle. -/
theorem open_failure_handle_state (r : CPcapReader) (contents : List Nat) :
    ((r.open_file none).2 = some RtError.cantOpen ∧
     (r.open_file none).1.fp_ = none ∧
     ((r.open_file none).1.get_next_packet).2 =
       NextResult.err RtError.fileNotOpen ∧
     RtError.fileNotOpen.kind = ErrKind.usageError) ∧
    (r.open_file (some contents)).1.fp_ =
      some (contents, min 24 contents.length) := by
  refine ⟨⟨rfl, rfl, rfl, rfl⟩, ?_⟩
  simp only [CPcapReader.open_file, fread, pcap_header_size]
  split_ifs <;> simp [List.length_take]

/-- Counterexample for C7 as stated: after Open fails on the all-zero
24-byte file (unrecognized magic), the session still holds an open file
handle, and the next NextRecord call returns the end-of-stream result
rather than failing with a UsageError. -/
theorem open_bad_magic_keeps_handle :
    (CPcapReader.mk0.open_file (some badmagic24)).2 =
      some RtError.notNanosecondPcap ∧
    (CPcapReader.mk0.open_file (some badmagic24)).1.fp_ =
      some (badmagic24, 24) ∧
    ((CPcapReader.mk0.open_file (some badmagic24)).1.get_next_packet).2 =
      NextResult.eof := by decide

/-- C4: on an opened session, if the 16-byte record header is fully read
and its declared length exceeds the 10000-byte payload capacity,
NextRecord fails with the FormatError (never the end-of-stream result);
a declared length of at most 10000 never triggers this error. -/
theorem bad_length_gives_format_error (r : CPcapReader) (contents : List Nat)
    (pos : Nat) (hfp : r.fp_ = some (contents, pos)) :
    (16 ≤ contents.length - pos ∧
        10000 < le32 ((contents.drop pos).take 16) 8 →
      (r.get_next_packet).2 =
        NextResult.err (RtError.badPacketLength
          (le32 ((contents.drop pos).take 16) 8)) ∧
      (RtError.badPacketLength
          (le32 ((contents.drop pos).take 16) 8)).kind =
        ErrKind.formatError) ∧
    (le32 ((contents.drop pos).take 16) 8 ≤ 10000 →
      ∀ l, (r.get_next_packet).2 ≠
        NextResult.err (RtError.badPacketLength l)) := by
  have hchunklen : ((contents.drop pos).take 16).length =
      min 16 (contents.length - pos) := by
    simp [List.length_take]
  constructor
  · rintro ⟨hrem, hbig⟩
    have hl16 : ((contents.drop pos).take 16).length = 16 := by omega
    refine ⟨?_, rfl⟩
    simp only [CPcapReader.get_next_packet, hfp, fread, hl16,
      pcap_data_capacity]
    simp [hbig]
  · intro hsmall l
    simp only [CPcapReader.get_next_packet, hfp, fread, pcap_data_capacity,
      hchunklen]
    by_cases hrem : contents.length - pos < 16
    · have h16 : min 16 (contents.length - pos) ≠ 16 := by omega
      simp [h16]
    · have h16 : min 16 (contents.length - pos) = 16 := by omega
      simp only [h16]
      have hno : ¬ 10000 < le32 ((contents.drop pos).take 16) 8 := by omega
      simp only [hno]
      split_ifs <;> simp_all

/-- Witness for C4: the session whose next record declares 10001 bytes. -/
theorem bad_length_gives_format_error_witness :
    sess_bigrec.fp_ = some (bigrec_file, 0) ∧
    ((16 ≤ bigrec_file.length - 0 ∧
        10000 < le32 ((bigrec_file.drop 0).take 16) 8 →
      (sess_bigrec.get_next_packet).2 =
        NextResult.err (RtError.badPacketLength
          (le32 ((bigrec_file.drop 0).take 16) 8)) ∧
      (RtError.badPacketLength
          (le32 ((bigrec_file.drop 0).take 16) 8)).kind =
        ErrKind.formatError) ∧
    (le32 ((bigrec_file.drop 0).take 16) 8 ≤ 10000 →
      ∀ l, (sess_bigrec.get_next_packet).2 ≠
        NextResult.err (RtError.badPacketLength l))) :=
  ⟨rfl, bad_length_gives_format_error sess_bigrec bigrec_file 0 rfl⟩

/-- C5: on an opened session, NextRecord returns the end-of-stream result
(not an error) in exactly two situations: fewer than 16 bytes remain for
the record header, or the header declares an in-bounds length L (at most
10000) but fewer than L payload bytes remain. -/
theorem next_record_eof_iff (r : CPcapReader) (contents : List Nat) (pos : Nat)
    (hfp : r.fp_ = some (contents, pos)) :
    ((r.get_next_packet).2 = NextResult.eof ↔
      (contents.length - pos < 16 ∨
       (16 ≤ contents.length - pos ∧
        le32 ((contents.drop pos).take 16) 8 ≤ 10000 ∧
        contents.length - pos - 16 <
          le32 ((contents.drop pos).take 16) 8))) := by
  have hchunklen : ((contents.drop pos).take 16).length =
      min 16 (contents.length - pos) := by
    simp [List.length_take]
  simp only [CPcapReader.get_next_packet, hfp, fread, pcap_data_capacity,
    hchunklen]
  by_cases hrem : contents.length - pos < 16
  · have h16 : min 16 (contents.length - pos) ≠ 16 := by omega
    simp [h16, hrem]
  · have h16 : min 16 (contents.length - pos) = 16 := by omega
    simp only [h16]
    by_cases hbig : 10000 < le32 ((contents.drop pos).take 16) 8
    · simp only [if_neg (by omega : ¬ (16 : Nat) ≠ 16), if_pos hbig]
      simp
      omega
    · simp only [if_neg (by omega : ¬ (16 : Nat) ≠ 16), if_neg hbig]
      have hdlen :
          ((contents.drop (pos + 16)).take
            (le32 ((contents.drop pos).take 16) 8)).length =
          min (le32 ((contents.drop pos).take 16) 8)
            (contents.length - (pos + 16)) := by
        simp [List.length_take]
      by_cases hfit : contents.length - (pos + 16) <
          le32 ((contents.drop pos).take 16) 8
      · have hne : min (le32 ((contents.drop pos).take 16) 8)
            (contents.length - (pos + 16)) ≠
            le32 ((contents.drop pos).take 16) 8 := by omega
        simp [hdlen, hne]
        omega
      · have heq : min (le32 ((contents.drop pos).take 16) 8)
            (contents.length - (pos + 16)) =
            le32 ((contents.drop pos).take 16) 8 := by omega
        simp [hdlen, heq]
        omega

/-- Witness for C5: a truncated trailing payload yields the end-of-stream
result. -/
theorem next_record_eof_iff_witness :
    sess_trunc.fp_ = some (truncrec_file, 0) ∧
    ((sess_trunc.get_next_packet).2 = NextResult.eof ↔
      (truncrec_file.length - 0 < 16 ∨
       (16 ≤ truncrec_file.length - 0 ∧
        le32 ((truncrec_file.drop 0).take 16) 8 ≤ 10000 ∧
        truncrec_file.length - 0 - 16 <
          le32 ((truncrec_file.drop 0).take 16) 8))) :=
  ⟨rfl, next_record_eof_iff sess_trunc truncrec_file 0 rfl⟩

/-- C9: over a successfully opened file whose remainder after the 24-byte
container header is exactly N well-formed records, the first N NextRecord
calls each return the corresponding record in file order, with payload
length exactly the declared length, and the call after them returns the
terminal end-of-stream result. -/
theorem well_formed_records_stream (contents : List Nat) (recs : List RawRec)
    (hopen : (CPcapReader.mk0.open_file (some contents)).2 = none)
    (hrecs : contents.drop 24 = encode_records recs)
    (hwf : ∀ rec ∈ recs, wf_rec rec) :
    (readN (CPcapReader.mk0.open_file (some contents)).1 recs.length).2 =
      recs.map (fun rec => NextResult.ok (packet_of rec)) ∧
    ((readN (CPcapReader.mk0.open_file (some contents)).1
        recs.length).1.get_next_packet).2 = NextResult.eof := by
  have hlen : 24 ≤ contents.length := by
    by_contra hlt
    push_neg at hlt
    rw [open_file_short CPcapReader.mk0 contents hlt] at hopen
    cases hopen
  have hfp : (CPcapReader.mk0.open_file (some contents)).1.fp_ =
      some (contents, 24) := open_file_fp CPcapReader.mk0 contents hlen
  obtain ⟨h1, posF, hposF, hend⟩ :=
    readN_encode contents recs (CPcapReader.mk0.open_file (some contents)).1
      24 hfp hrecs hwf
  exact ⟨h1, get_next_packet_at_end _ contents posF hposF hend⟩

/-- Witness for C9: the two-record capture yields exactly the two records
and then the end-of-stream result. -/
theorem well_formed_records_stream_witness :
    (CPcapReader.mk0.open_file (some file2recs)).2 = none ∧
    file2recs.drop 24 = encode_records [recA, recB] ∧
    ((readN (CPcapReader.mk0.open_file (some file2recs)).1
        ([recA, recB] : List RawRec).length).2 =
      ([recA, recB] : List RawRec).map
        (fun rec => NextResult.ok (packet_of rec)) ∧
    ((readN (CPcapReader.mk0.open_file (some file2recs)).1
        ([recA, recB] : List RawRec).length).1.get_next_packet).2 =
      NextResult.eof) :=
  ⟨by decide, by decide,
   well_formed_records_stream file2recs [recA, recB] (by decide) (by decide)
     (by decide)⟩
